import Mathlib

/-!
Verification development for the `migros_api` repository.

The definitions below are a shallow embedding of the two source files
`migros_api/exceptions_migros.py` and `migros_api/migros_api.py`.
Pure computations are translated to Lean functions; the HTTP layer is
modelled by an explicit event trace (requests and sleeps) and a `fetch`
function mapping a page number to that page's parsed markup, itself
modelled as a flat list of markup nodes in document order (this mirrors
BeautifulSoup's document-order `find_next` traversal used by the code).
-/

namespace MigrosApi

/-! ### Character-list string primitives

The Python string operations used by the code (`isnumeric`, `int(...)`,
`strip`, `split`) are modelled by structurally recursive functions over a
string's character list, so that every definition evaluates inside the
kernel. -/

/-- All characters are ASCII digits. -/
def allDigits : List Char → Bool
  | [] => true
  | c :: cs => c.isDigit && allDigits cs

/-- The value of a digit string, most significant first. -/
def digitsVal : List Char → Nat → Nat
  | [], acc => acc
  | c :: cs, acc => digitsVal cs (acc * 10 + (c.toNat - '0'.toNat))

/-- ASCII whitespace, as stripped by Python `str.strip()`. -/
def isSpaceChar (c : Char) : Bool :=
  c = ' ' || c = '\t' || c = '\n' || c = '\r'

/-- Drop leading whitespace characters. -/
def dropLeadingSpace : List Char → List Char
  | [] => []
  | c :: cs => if isSpaceChar c then dropLeadingSpace cs else c :: cs

/-- Strip whitespace from both ends. -/
def trimChars (cs : List Char) : List Char :=
  ((dropLeadingSpace ((dropLeadingSpace cs).reverse)).reverse)

/-- Python `s.strip()`. -/
def pyStrip (s : String) : String := ⟨trimChars s.data⟩

/-- Whether the second list begins with the first. -/
def leadsWith : List Char → List Char → Bool
  | [], _ => true
  | _ :: _, [] => false
  | p :: ps, c :: cs => p = c && leadsWith ps cs

/-- Fuelled worker for `splitOnChars`; the fuel is the input length, and
each step consumes at least one character. -/
def splitOnCharsF (sep : List Char) : Nat → List Char → List (List Char)
  | _, [] => [[]]
  | 0, l => [l]
  | fuel + 1, c :: cs =>
    if !sep.isEmpty && leadsWith sep (c :: cs) then
      [] :: splitOnCharsF sep fuel (List.drop (sep.length - 1) cs)
    else
      match splitOnCharsF sep fuel cs with
      | [] => [[c]]
      | seg :: segs => (c :: seg) :: segs

/-- Python `s.split(sep)` for a non-empty separator: non-overlapping
splits, scanning left to right. -/
def splitOnChars (sep l : List Char) : List (List Char) :=
  splitOnCharsF sep l.length l

instance {ε α : Type} [DecidableEq ε] [DecidableEq α] : DecidableEq (Except ε α)
  | .ok a, .ok b => if h : a = b then .isTrue (by rw [h]) else .isFalse (by simp [h])
  | .ok _, .error _ => .isFalse (by simp)
  | .error _, .ok _ => .isFalse (by simp)
  | .error e, .error f => if h : e = f then .isTrue (by rw [h]) else .isFalse (by simp [h])

/-! ### Model of `exceptions_migros.py` -/

/-- A key of the `ERROR_CODES` dictionary: the Python dict holds both the
int form and the string form of every code. -/
inductive ErrKey where
  | num (n : Int)
  | str (s : String)
deriving DecidableEq, Repr

/-- The `ERROR_CODES` class attribute, entry for entry. -/
def ERROR_CODES : List (ErrKey × String) :=
  [ (.num 1, "Could not authenticate"),
    (.str "1", "Could not authenticate"),
    (.num 2, "Could not find username when authenticating"),
    (.str "2", "Could not find username when authenticating"),
    (.num 3, "Could not authenticate to cumulus"),
    (.str "3", "Could not authenticate to cumulus"),
    (.num 4, "period_from and period_to should be datetime objects"),
    (.str "4", "period_from and period_to should be datetime objects"),
    (.num 5, "`period_from` should be <= to `period_to`"),
    (.str "5", "`period_from` should be <= to `period_to`"),
    (.num 6, "Request again the item and indicate request_pdf=True"),
    (.str "6", "Request again the item and indicate request_pdf=True") ]

/-- `ERROR_CODES.get(k)`: dictionary lookup returning `None` on a missing
key. -/
def catalogGet (k : ErrKey) : Option String :=
  (ERROR_CODES.find? (fun p => decide (p.1 = k))).map (·.2)

/-- A Python value passed as the `code` argument of
`ExceptionMigrosApi.__init__`: the code base passes ints and strings. -/
inductive PyCode where
  | pint (n : Int)
  | pstr (s : String)
deriving DecidableEq, Repr

/-- Python `str(code)` for the two code shapes that occur. -/
def pyStr : PyCode → String
  | .pint n => toString n
  | .pstr s => s

/-- Python `s.isnumeric()` restricted to ASCII digits (the only characters
appearing in this code base's page values and codes). -/
def isnumericStr (s : String) : Bool :=
  !s.data.isEmpty && allDigits s.data

/-- The numeric value of a digit string, Python `int(s)` on an
all-digit input. -/
def strNatVal (s : String) : Nat := digitsVal s.data 0

/-- Python `int(s)` on a string: strips surrounding whitespace, accepts an
optional sign followed by digits, and raises `ValueError` (here `none`)
otherwise. -/
def pyIntOfString (s : String) : Option Int :=
  match trimChars s.data with
  | [] => none
  | c :: cs =>
    if c = '-' then
      if !cs.isEmpty && allDigits cs then some (-(digitsVal cs 0 : Int)) else none
    else if c = '+' then
      if !cs.isEmpty && allDigits cs then some ((digitsVal cs 0 : Int)) else none
    else if allDigits (c :: cs) then some ((digitsVal (c :: cs) 0 : Int)) else none

/-- The state an `ExceptionMigrosApi` instance carries after `__init__`:
`self.code` (stringified, possibly `None`) and `self.msg` (possibly
`None`, since a failed catalog lookup stores `None`). -/
structure MigrosExcState where
  code : Option String
  msg : Option String
deriving DecidableEq, Repr

/-- Fallback arm of `__init__`: `self.ERROR_CODES.get(int(self.code))`,
where `int` may raise `ValueError` (modelled by `Except.error ()`). -/
def excInitIntFallback (cs : String) : Except Unit MigrosExcState :=
  match pyIntOfString cs with
  | none => .error ()
  | some i => .ok ⟨some cs, catalogGet (.num i)⟩

/-- `ExceptionMigrosApi.__init__(code, message)`.  `self.code = str(code)`
when a code is given; a custom message short-circuits the catalog; else
`self.msg = ERROR_CODES.get(self.code) or ERROR_CODES.get(int(self.code))`
(Python `or`: the second operand is evaluated when the first is falsy). -/
def excMigrosInit (code : Option PyCode) (message : Option String) :
    Except Unit MigrosExcState :=
  let c := code.map pyStr
  match message with
  | some m => .ok ⟨c, some m⟩
  | none =>
    match c with
    | none => .ok ⟨none, some "Unknown error occurred"⟩
    | some cs =>
      match catalogGet (.str cs) with
      | some m => if m = "" then excInitIntFallback cs else .ok ⟨some cs, some m⟩
      | none => excInitIntFallback cs

/-- An error escaping a method of the code base: either an
`ExceptionMigrosApi` (with its post-`__init__` state) or a plain Python
exception carrying only a message (`Exception(...)`, `ValueError`, ...). -/
inductive PyErr where
  | migros (code : Option String) (msg : Option String)
  | plain (msg : String)
deriving DecidableEq, Repr

/-- `raise ExceptionMigrosApi(c, m)`: runs the constructor; a `ValueError`
escaping the constructor surfaces as a plain exception. -/
def raiseMigros (c : PyCode) (m : Option String) : PyErr :=
  match excMigrosInit (some c) m with
  | .ok st => .migros st.code st.msg
  | .error _ => .plain "ValueError"

/-- Whether an escaped error carries a stable catalog-style code. -/
def hasCatalogCode : PyErr → Bool
  | .migros (some _) _ => true
  | _ => false

/-- The error raised by `get_receipt` when the network request fails:
`raise ExceptionMigrosApi(f"Failed to retrieve receipt {receipt_id}")`,
passing the message string as the (single, positional) `code` argument. -/
def get_receipt_error (receipt_id : String) : Except Unit MigrosExcState :=
  excMigrosInit (some (.pstr ("Failed to retrieve receipt " ++ receipt_id))) none

/-! ### Model of a parsed listing page (`_parse_receipt_data`)

A page's markup is a flat list of the nodes the parser cares about, in
document order.  `find_next` in BeautifulSoup walks the whole document
forward from an element, so it is modelled as a search over the suffix of
this list. -/

/-- A markup node relevant to `_parse_receipt_data`. -/
inductive Node where
  /-- `<input type="checkbox" value=...>`; `value` is the attribute, absent
  attributes read as `None`. -/
  | checkbox (value : Option String)
  /-- `<a aria-label="Seite" data-value=...>`: a pagination control. -/
  | pageAnchor (dataValue : Option String)
  /-- `<a class="ui-js-toggle-modal" href=...>`: a detail (PDF) link. -/
  | modalAnchor (href : Option String)
  /-- `<td>` holding the given text. -/
  | td (text : String)
  /-- Any other markup (row boundaries, etc.), ignored by all searches. -/
  | other
deriving DecidableEq, Repr

/-- One entry of the result mapping, as stored by `_parse_receipt_data`. -/
structure Record where
  pdf_ref : String
  receipt_id : String
  store_name : String
  cost : String
  cumulus_points : String
deriving DecidableEq, Repr

/-- The Python `result_dict`: keys are `item.get('value')` (hence possibly
`None`).  Assignment replaces in place or appends, like a Python dict. -/
abbrev RDict := List (Option String × Record)

/-- `result_dict[k] = v`: replace the value if the key is present, else
append the binding. -/
def dictInsert (d : RDict) (k : Option String) (v : Record) : RDict :=
  if d.any (fun p => decide (p.1 = k)) then
    d.map (fun p => if p.1 = k then (k, v) else p)
  else d ++ [(k, v)]

/-- The keys of the result mapping. -/
def keys (d : RDict) : List (Option String) := d.map Prod.fst

/-- `item.find_next('a', attrs={'class': 'ui-js-toggle-modal'})` from the
node at index `i`: the first modal anchor strictly after `i` in document
order, returned with its index and its `href` attribute. -/
def findNextModal (doc : List Node) (i : Nat) : Option (Nat × Option String) :=
  (doc.enum.drop (i + 1)).findSome? (fun p =>
    match p.2 with
    | .modalAnchor h => some (p.1, h)
    | _ => none)

/-- `el.find_next('td')` from the node at index `i`: the first `td`
strictly after `i`, with its index and text. -/
def findNextTd (doc : List Node) (i : Nat) : Option (Nat × String) :=
  (doc.enum.drop (i + 1)).findSome? (fun p =>
    match p.2 with
    | .td t => some (p.1, t)
    | _ => none)

/-- Python `s.split(mark)[-1]`. -/
def lastSegment (mark s : String) : String :=
  ⟨(splitOnChars mark.data s.data).getLastD s.data⟩

/-- The plain exception raised when `_parse_receipt_data` hits an anchor
without an `href` (`None.split` raises, the `except` arm re-wraps). -/
def parseFailErr : PyErr := .plain "Failed to parse receipt data: AttributeError"

/-- The body of the per-checkbox loop of `_parse_receipt_data` for the
checkbox at index `i` with value attribute `v`: skip the select-all
sentinel, find the next detail link (skip if none anywhere after), derive
the receipt id from its `href`, then find the next three `td` cells (skip
if any is missing), else produce the mapping entry. -/
def rowStep (doc : List Node) (i : Nat) (v : Option String) :
    Except PyErr (Option (Option String × Record)) :=
  if v = some "all" then .ok none
  else
    match findNextModal doc i with
    | none => .ok none
    | some (_, none) => .error parseFailErr
    | some (j, some href) =>
      let rid := lastSegment "receiptId=" href
      match findNextTd doc j with
      | none => .ok none
      | some (j1, s) =>
        match findNextTd doc j1 with
        | none => .ok none
        | some (j2, c) =>
          match findNextTd doc j2 with
          | none => .ok none
          | some (_, p) =>
            .ok (some (v, ⟨href, rid, pyStrip s, pyStrip c, pyStrip p⟩))

/-- `soup.find_all('input', attrs={'type': 'checkbox'})` with each hit's
document index and `value` attribute. -/
def boxesOf (doc : List Node) : List (Nat × Option String) :=
  doc.enum.filterMap (fun p =>
    match p.2 with
    | .checkbox v => some (p.1, v)
    | _ => none)

/-- The receipt-item loop of `_parse_receipt_data`, folding `rowStep` over
the checkboxes and threading the mutated `result_dict`. -/
def rowsFold (doc : List Node) : List (Nat × Option String) → RDict →
    Except PyErr RDict
  | [], d => .ok d
  | b :: bs, d =>
    match rowStep doc b.1 b.2 with
    | .error e => .error e
    | .ok none => rowsFold doc bs d
    | .ok (some kv) => rowsFold doc bs (dictInsert d kv.1 kv.2)

/-- The numeric `data-value`s collected from the pagination anchors
(`if page_value and page_value.isnumeric()`). -/
def pageValues (doc : List Node) : List Nat :=
  doc.filterMap (fun n =>
    match n with
    | .pageAnchor (some s) => if isnumericStr s then some (strNatVal s) else none
    | _ => none)

/-- `total_pages = max(pages) if pages else 1`. -/
def totalPagesOf (doc : List Node) : Nat :=
  if (pageValues doc).isEmpty then 1 else (pageValues doc).foldl Nat.max 0

/-- `_parse_receipt_data(response, result_dict)`: returns the updated
mapping together with `total_pages`, or the wrapped plain exception. -/
def parse_receipt_data (doc : List Node) (d : RDict) :
    Except PyErr (RDict × Nat) :=
  match rowsFold doc (boxesOf doc) d with
  | .error e => .error e
  | .ok d' => .ok (d', totalPagesOf doc)

/-! ### Network-event traces, the pagination loop, and the login sequence -/

/-- A network request issued by the code, by call site. -/
inductive ReqTag where
  | warmup
  | loginPage
  | credPost
  | cumulus
  | listing (page : Nat)
deriving DecidableEq, Repr

/-- An observable event: a network request or a `time.sleep(n)`. -/
inductive Ev where
  | req (t : ReqTag)
  | sleep (n : Nat)
deriving DecidableEq, Repr

/-- Outcome of a run that may also fail to terminate within the supplied
fuel (the `while True:` loop has no intrinsic bound). -/
inductive RunResult (α : Type) where
  | ok (a : α)
  | err (e : PyErr)
  | hang
deriving DecidableEq, Repr

/-- The `while True:` loop of `get_all_receipts`: request page `current`,
parse it into the accumulating dict, re-read `total_pages` from this very
page, break once `current_page >= total_pages`, else sleep 1 and continue
with the next page. -/
def listLoop (fetch : Nat → List Node) : Nat → Nat → RDict →
    List Ev × RunResult RDict
  | 0, _, _ => ([], .hang)
  | fuel + 1, current, d =>
    match parse_receipt_data (fetch current) d with
    | .error e => ([Ev.req (.listing current)], .err e)
    | .ok (d', total) =>
      if total ≤ current then ([Ev.req (.listing current)], .ok d')
      else
        let r := listLoop fetch fuel (current + 1) d'
        (Ev.req (.listing current) :: Ev.sleep 1 :: r.1, r.2)

/-- The `except Exception` arm of `get_all_receipts`: a non-catalog
exception is re-raised as `Exception(f"Failed to get receipts: {err}")`;
an `ExceptionMigrosApi` is re-raised unchanged. -/
def wrapListing : List Ev × RunResult RDict → List Ev × RunResult RDict
  | (log, .err (.plain m)) => (log, .err (.plain ("Failed to get receipts: " ++ m)))
  | r => r

/-- A Python value passed as `period_from` / `period_to`: a `datetime`
(ordered by its timeline position) or any non-`datetime` value. -/
inductive PyDateVal where
  | dt (t : Int)
  | notDate
deriving DecidableEq, Repr

/-- `isinstance(date, datetime)`. -/
def isDatetime : PyDateVal → Bool
  | .dt _ => true
  | .notDate => false

/-- `get_all_receipts(period_from, period_to)`: validate both inputs are
datetimes (else `ExceptionMigrosApi(4)`), require `period_from <=
period_to` (else `ExceptionMigrosApi(5)`), then run the page loop.  The
returned event list records every network request issued, in order. -/
def get_all_receipts (fetch : Nat → List Node) (pf pt : PyDateVal)
    (fuel : Nat) : List Ev × RunResult RDict :=
  match pf, pt with
  | .dt a, .dt b =>
    if b < a then ([], .err (raiseMigros (.pint 5) none))
    else wrapListing (listLoop fetch fuel 1 [])
  | _, _ => ([], .err (raiseMigros (.pint 4) none))

/-- The pages requested by a run, in order. -/
def listingReqs (evs : List Ev) : List Nat :=
  evs.filterMap (fun e =>
    match e with
    | .req (.listing p) => some p
    | _ => none)

/-- All requests of a trace, in order. -/
def reqsOf (evs : List Ev) : List ReqTag :=
  evs.filterMap (fun e =>
    match e with
    | .req t => some t
    | _ => none)

/-- Helper for `gaps`: `seen` records whether a request was already met,
`acc` sums the sleep units since the last request. -/
def gapsAux : List Ev → Bool → Nat → List Nat
  | [], _, _ => []
  | Ev.sleep n :: rest, seen, acc => gapsAux rest seen (acc + n)
  | Ev.req _ :: rest, false, _ => gapsAux rest true 0
  | Ev.req _ :: rest, true, acc => acc :: gapsAux rest true 0

/-- The pacing gaps of a trace: for each pair of successive requests, the
total sleep units separating them. -/
def gaps (evs : List Ev) : List Nat := gapsAux evs false 0

/-! #### The login sequence -/

/-- The lookbehind of the regex `(?<="_csrf" content=")([^"]+)`. -/
def csrfMarker : String := "\"_csrf\" content=\""

/-- `re.search(self.csrf_pattern, response.text)`: at each occurrence of
the marker, the maximal run of non-quote characters following it; the
first occurrence with a non-empty run yields the token. -/
def csrfSearch (body : String) : Option String :=
  match splitOnChars csrfMarker.data body.data with
  | [] => none
  | [_] => none
  | _ :: rest =>
    ((rest.map (fun seg => seg.takeWhile (fun ch => ch ≠ '"'))).find?
      (fun t => !t.isEmpty)).map (fun t => ⟨t⟩)

/-- The environment a login run meets: the login page body, the error
regions of the credential-POST response, whether the post-redirect URL
contains `authentication_error`, and whether the Cumulus landing page
contains the `Cumulus` marker. -/
structure LoginWorld where
  loginBody : String
  postErrorTexts : List String
  postUrlHasAuthError : Bool
  cumulusMarkerPresent : Bool

/-- `__authenticate`: GET the login page, sleep 1, extract the CSRF token
(`ExceptionMigrosApi(1, "CSRF token not found")` if absent, no POST),
sleep 2, POST the credentials, then inspect the response. -/
def authTrace (w : LoginWorld) : List Ev × Except PyErr Unit :=
  let pre := [Ev.req .loginPage, Ev.sleep 1]
  match csrfSearch w.loginBody with
  | none => (pre, .error (raiseMigros (.pint 1) (some "CSRF token not found")))
  | some _ =>
    let evs := pre ++ [Ev.sleep 2, Ev.req .credPost]
    if !w.postErrorTexts.isEmpty then
      (evs, .error (raiseMigros (.pint 1)
        (some ("Login failed: " ++ String.intercalate " | " w.postErrorTexts))))
    else if w.postUrlHasAuthError then
      (evs, .error (raiseMigros (.pint 1) (some "Authentication failed")))
    else (evs, .ok ())

/-- `_login_cumulus`: authenticate, then GET the Cumulus landing page and
require the `Cumulus` marker (`ExceptionMigrosApi(3, ...)` otherwise). -/
def loginCumulusTrace (w : LoginWorld) : List Ev × Except PyErr Unit :=
  match authTrace w with
  | (evs, .error e) => (evs, .error e)
  | (evs, .ok _) =>
    let evs2 := evs ++ [Ev.req .cumulus]
    if w.cumulusMarkerPresent then (evs2, .ok ())
    else (evs2, .error (raiseMigros (.pint 3) (some "Failed to access Cumulus account")))

/-- The constructor's login sequence: `_init_session` (warm-up GET then
sleep 1) followed by `_login_cumulus`. -/
def loginRun (w : LoginWorld) : List Ev × Except PyErr Unit :=
  let r := loginCumulusTrace w
  (Ev.req .warmup :: Ev.sleep 1 :: r.1, r.2)

/-! ### Concrete pages and worlds used to instantiate the claims -/

/-- Page 1 of the two-page end-to-end scenario: pagination max-value 2 and
two valid rows (plus the select-all sentinel). -/
def scenPage1 : List Node :=
  [ .pageAnchor (some "1"), .pageAnchor (some "2"),
    .checkbox (some "all"),
    .checkbox (some "dl1"), .modalAnchor (some "export?receiptId=r1"),
    .td " Store One ", .td "10.00", .td "5",
    .other,
    .checkbox (some "dl2"), .modalAnchor (some "export?receiptId=r2"),
    .td "Store Two", .td "20.50", .td "7" ]

/-- Page 2 of the two-page scenario: one valid row, no pagination markup. -/
def scenPage2 : List Node :=
  [ .checkbox (some "dl3"), .modalAnchor (some "export?receiptId=r3"),
    .td "Store Three", .td "5.95", .td "2" ]

/-- The two-page listing: page 1, page 2, and empty pages beyond. -/
def scenFetch : Nat → List Node :=
  fun p => if p = 1 then scenPage1 else if p = 2 then scenPage2 else []

/-- A listing whose pages report growing page counts: page 1 reports 2,
page 2 reports 3, page 3 reports nothing. -/
def divFetch : Nat → List Node :=
  fun p =>
    if p = 1 then [.pageAnchor (some "2")]
    else if p = 2 then [.pageAnchor (some "3")]
    else []

/-- A page whose first row (`rowA`) has no detail link of its own: the
only modal anchor belongs to the second row (`rowB`), after the `other`
row boundary. -/
def docSteal : List Node :=
  [ .checkbox (some "rowA"),
    .other,
    .checkbox (some "rowB"), .modalAnchor (some "export?receiptId=rB"),
    .td "StoreB", .td "9.99", .td "3" ]

/-- A page containing a detail anchor without an `href` attribute, so that
`pdf_ref.get('href').split(...)` raises inside the parser. -/
def docBadHref : List Node :=
  [ .checkbox (some "x1"), .modalAnchor none ]

/-- A page with pagination data-values 1, 2, 3, 5. -/
def pageEx : List Node :=
  [ .pageAnchor (some "1"), .pageAnchor (some "2"),
    .pageAnchor (some "3"), .pageAnchor (some "5") ]

/-- A single-row page used as a small witness input. -/
def docOneRow : List Node :=
  [ .checkbox (some "k1"), .modalAnchor (some "export?receiptId=w1"),
    .td "S", .td "1.00", .td "0" ]

/-- A login world whose login page carries no CSRF marker. -/
def wNoToken : LoginWorld :=
  { loginBody := "<html><head></head></html>",
    postErrorTexts := [], postUrlHasAuthError := false,
    cumulusMarkerPresent := true }

/-- A login world in which every step succeeds. -/
def wHappy : LoginWorld :=
  { loginBody := "<meta name=\"_csrf\" content=\"tok123\" />",
    postErrorTexts := [], postUrlHasAuthError := false,
    cumulusMarkerPresent := true }

/-! ### Helper lemmas -/

theorem mem_dictInsert {d : RDict} {k0 k : Option String} {v0 r : Record}
    (h : (k, r) ∈ dictInsert d k0 v0) : (k, r) ∈ d ∨ (k = k0 ∧ r = v0) := by
  unfold dictInsert at h
  split at h
  · obtain ⟨p, hp, hpe⟩ := List.mem_map.mp h
    by_cases hk : p.1 = k0
    · rw [if_pos hk] at hpe
      right
      exact ⟨(Prod.mk.injEq _ _ _ _ ▸ hpe.symm).1, (Prod.mk.injEq _ _ _ _ ▸ hpe.symm).2⟩
    · rw [if_neg hk] at hpe
      left
      exact hpe ▸ hp
  · rcases List.mem_append.mp h with h | h
    · exact Or.inl h
    · right
      simpa using h

theorem keys_dictInsert_mono {d : RDict} {k0 k : Option String} {v0 : Record}
    (h : k ∈ keys d) : k ∈ keys (dictInsert d k0 v0) := by
  unfold keys at h
  obtain ⟨p, hp, hpk⟩ := List.mem_map.mp h
  unfold dictInsert keys
  split
  · refine List.mem_map.mpr ⟨if p.1 = k0 then (k0, v0) else p, List.mem_map.mpr ⟨p, hp, rfl⟩, ?_⟩
    by_cases hk : p.1 = k0
    · rw [if_pos hk, ← hk]
      exact hpk
    · rw [if_neg hk]
      exact hpk
  · exact List.mem_map.mpr ⟨p, List.mem_append_left _ hp, hpk⟩

theorem inserted_key_mem {d : RDict} {k0 : Option String} {v0 : Record} :
    k0 ∈ keys (dictInsert d k0 v0) := by
  unfold dictInsert keys
  split
  next hany =>
    obtain ⟨p, hp, hpk⟩ := List.any_eq_true.mp hany
    replace hpk := of_decide_eq_true hpk
    exact List.mem_map.mpr ⟨(k0, v0), List.mem_map.mpr ⟨p, hp, by simp [hpk]⟩, rfl⟩
  · simp

theorem rowStep_error_eq {doc : List Node} {i : Nat} {v : Option String} {e : PyErr}
    (h : rowStep doc i v = .error e) : e = parseFailErr := by
  by_cases hv : v = some "all"
  · simp [rowStep, hv] at h
  · rcases hm : findNextModal doc i with _ | ⟨j, href⟩
    · simp [rowStep, hv, hm] at h
    · rcases href with _ | href
      · simp only [rowStep, if_neg hv, hm] at h
        exact (Except.error.inj h).symm
      · rcases ht1 : findNextTd doc j with _ | ⟨j1, s⟩
        · simp [rowStep, hv, hm, ht1] at h
        · rcases ht2 : findNextTd doc j1 with _ | ⟨j2, c⟩
          · simp [rowStep, hv, hm, ht1, ht2] at h
          · rcases ht3 : findNextTd doc j2 with _ | ⟨j3, p⟩
            · simp [rowStep, hv, hm, ht1, ht2, ht3] at h
            · simp [rowStep, hv, hm, ht1, ht2, ht3] at h

theorem rowStep_ok_some {doc : List Node} {i : Nat} {v k : Option String} {r : Record}
    (h : rowStep doc i v = .ok (some (k, r))) :
    k = v ∧ v ≠ some "all" ∧
      ∃ j, findNextModal doc i = some (j, some r.pdf_ref) ∧
        r.receipt_id = lastSegment "receiptId=" r.pdf_ref := by
  by_cases hv : v = some "all"
  · simp [rowStep, hv] at h
  · rcases hm : findNextModal doc i with _ | ⟨j, href⟩
    · simp [rowStep, hv, hm] at h
    · rcases href with _ | href
      · simp [rowStep, hv, hm] at h
      · rcases ht1 : findNextTd doc j with _ | ⟨j1, s⟩
        · simp [rowStep, hv, hm, ht1] at h
        · rcases ht2 : findNextTd doc j1 with _ | ⟨j2, c⟩
          · simp [rowStep, hv, hm, ht1, ht2] at h
          · rcases ht3 : findNextTd doc j2 with _ | ⟨j3, p⟩
            · simp [rowStep, hv, hm, ht1, ht2, ht3] at h
            · simp only [rowStep, if_neg hv, hm, ht1, ht2, ht3, Except.ok.injEq,
                Option.some.injEq, Prod.mk.injEq] at h
              obtain ⟨hk, hr⟩ := h
              subst hk
              subst hr
              exact ⟨rfl, hv, j, rfl, rfl⟩

theorem rowsFold_error_eq {doc : List Node} {e : PyErr} :
    ∀ {bs : List (Nat × Option String)} {d : RDict},
      rowsFold doc bs d = .error e → e = parseFailErr := by
  intro bs
  induction bs with
  | nil => intro d h; simp [rowsFold] at h
  | cons b bs ih =>
    intro d h
    unfold rowsFold at h
    rcases hs : rowStep doc b.1 b.2 with e' | o
    · rw [hs] at h
      exact (Except.error.injEq _ _ ▸ h) ▸ rowStep_error_eq hs
    · rcases o with _ | kv
      · rw [hs] at h; exact ih h
      · rw [hs] at h; exact ih h

theorem rowsFold_prov {doc : List Node} {k : Option String} {r : Record} :
    ∀ {bs : List (Nat × Option String)} {d0 d : RDict},
      rowsFold doc bs d0 = .ok d → (k, r) ∈ d →
      (k, r) ∈ d0 ∨ ∃ b ∈ bs, rowStep doc b.1 b.2 = .ok (some (k, r)) := by
  intro bs
  induction bs with
  | nil =>
    intro d0 d h hm
    simp only [rowsFold, Except.ok.injEq] at h
    exact Or.inl (h ▸ hm)
  | cons b bs ih =>
    intro d0 d h hm
    unfold rowsFold at h
    rcases hs : rowStep doc b.1 b.2 with e' | o
    · rw [hs] at h; exact absurd h (by simp)
    · rcases o with _ | kv
      · rw [hs] at h
        rcases ih h hm with h' | ⟨b', hb', hb's⟩
        · exact Or.inl h'
        · exact Or.inr ⟨b', List.mem_cons_of_mem _ hb', hb's⟩
      · rw [hs] at h
        rcases ih h hm with h' | ⟨b', hb', hb's⟩
        · rcases mem_dictInsert h' with h'' | ⟨rfl, rfl⟩
          · exact Or.inl h''
          · exact Or.inr ⟨b, List.mem_cons_self _ _, hs⟩
        · exact Or.inr ⟨b', List.mem_cons_of_mem _ hb', hb's⟩

theorem rowsFold_keys_mono {doc : List Node} {k : Option String} :
    ∀ {bs : List (Nat × Option String)} {d0 d : RDict},
      rowsFold doc bs d0 = .ok d → k ∈ keys d0 → k ∈ keys d := by
  intro bs
  induction bs with
  | nil =>
    intro d0 d h hk
    simp only [rowsFold, Except.ok.injEq] at h
    exact h ▸ hk
  | cons b bs ih =>
    intro d0 d h hk
    unfold rowsFold at h
    rcases hs : rowStep doc b.1 b.2 with e' | o
    · rw [hs] at h; exact absurd h (by simp)
    · rcases o with _ | kv
      · rw [hs] at h; exact ih h hk
      · rw [hs] at h; exact ih h (keys_dictInsert_mono hk)

theorem rowsFold_incl {doc : List Node} {k : Option String} {r : Record} :
    ∀ {bs : List (Nat × Option String)} {d0 d : RDict} {b : Nat × Option String},
      rowsFold doc bs d0 = .ok d → b ∈ bs →
      rowStep doc b.1 b.2 = .ok (some (k, r)) → k ∈ keys d := by
  intro bs
  induction bs with
  | nil => intro d0 d b _ hb; exact absurd hb (List.not_mem_nil _)
  | cons b0 bs ih =>
    intro d0 d b h hb hstep
    unfold rowsFold at h
    rcases List.mem_cons.mp hb with rfl | hb'
    · rw [hstep] at h
      exact rowsFold_keys_mono h inserted_key_mem
    · rcases hs : rowStep doc b0.1 b0.2 with e' | o
      · rw [hs] at h; exact absurd h (by simp)
      · rcases o with _ | kv
        · rw [hs] at h; exact ih h hb' hstep
        · rw [hs] at h; exact ih h hb' hstep

theorem mem_boxesOf {doc : List Node} {i : Nat} {v : Option String} :
    (i, v) ∈ boxesOf doc ↔ doc[i]? = some (.checkbox v) := by
  unfold boxesOf
  rw [List.mem_filterMap]
  constructor
  · rintro ⟨⟨j, n⟩, hmem, hf⟩
    rcases n with w | dv | hr | t | _
    case checkbox =>
      simp only [Option.some.injEq, Prod.mk.injEq] at hf
      obtain ⟨rfl, rfl⟩ := hf
      exact List.mem_enum_iff_getElem?.mp hmem
    all_goals simp at hf
  · intro h
    exact ⟨(i, .checkbox v), List.mem_enum_iff_getElem?.mpr h, rfl⟩

theorem parse_ok_inv {doc : List Node} {d d' : RDict} {n : Nat}
    (h : parse_receipt_data doc d = .ok (d', n)) :
    rowsFold doc (boxesOf doc) d = .ok d' ∧ n = totalPagesOf doc := by
  unfold parse_receipt_data at h
  rcases hf : rowsFold doc (boxesOf doc) d with e | d''
  · rw [hf] at h; exact absurd h (by simp)
  · rw [hf] at h
    simp only [Except.ok.injEq, Prod.mk.injEq] at h
    obtain ⟨h1, h2⟩ := h
    subst h1
    exact ⟨rfl, h2.symm⟩

theorem parse_error_inv {doc : List Node} {d : RDict} {e : PyErr}
    (h : parse_receipt_data doc d = .error e) : e = parseFailErr := by
  unfold parse_receipt_data at h
  rcases hf : rowsFold doc (boxesOf doc) d with e' | d''
  · rw [hf] at h
    exact (Except.error.injEq _ _ ▸ h) ▸ rowsFold_error_eq hf
  · rw [hf] at h; exact absurd h (by simp)

theorem foldl_max_mem : ∀ (l : List Nat) (a : Nat),
    l.foldl Nat.max a = a ∨ l.foldl Nat.max a ∈ l := by
  intro l
  induction l with
  | nil => intro a; exact Or.inl rfl
  | cons x l ih =>
    intro a
    rcases ih (Nat.max a x) with h | h
    · rcases Nat.le_total a x with hle | hle
      · right
        have hmax : Nat.max a x = x := Nat.max_eq_right hle
        rw [List.foldl_cons, h, hmax]
        exact List.mem_cons_self _ _
      · left
        have hmax : Nat.max a x = a := Nat.max_eq_left hle
        rw [List.foldl_cons, h, hmax]
    · right
      exact List.mem_cons_of_mem _ h

theorem listLoop_succ_err (fetch : Nat → List Node) (fuel c : Nat) (d : RDict)
    {e : PyErr} (hp : parse_receipt_data (fetch c) d = .error e) :
    listLoop fetch (fuel + 1) c d = ([Ev.req (.listing c)], .err e) := by
  unfold listLoop
  rw [hp]

theorem listLoop_succ_ok (fetch : Nat → List Node) (fuel c : Nat) (d : RDict)
    {d0 : RDict} {total : Nat}
    (hp : parse_receipt_data (fetch c) d = .ok (d0, total)) :
    listLoop fetch (fuel + 1) c d =
      if total ≤ c then ([Ev.req (.listing c)], .ok d0)
      else (Ev.req (.listing c) :: Ev.sleep 1 :: (listLoop fetch fuel (c + 1) d0).1,
        (listLoop fetch fuel (c + 1) d0).2) := by
  conv_lhs => unfold listLoop
  rw [hp]

theorem le_foldl_max : ∀ (l : List Nat) (a x : Nat), x ∈ l → x ≤ l.foldl Nat.max a := by
  intro l
  induction l with
  | nil => intro a x hx; exact absurd hx (List.not_mem_nil _)
  | cons y l ih =>
    intro a x hx
    have base : ∀ b, b ≤ l.foldl Nat.max b := by
      intro b
      clear hx ih
      induction l generalizing b with
      | nil => exact Nat.le_refl _
      | cons z l ih2 =>
        exact Nat.le_trans (Nat.le_max_left b z) (ih2 (Nat.max b z))
    rcases List.mem_cons.mp hx with rfl | hx'
    · exact Nat.le_trans (Nat.le_max_right a x) (base (Nat.max a x))
    · exact ih (Nat.max a y) x hx'

theorem listLoop_reqs (fetch : Nat → List Node) :
    ∀ (fuel c : Nat) (d : RDict),
      ∃ k, listingReqs (listLoop fetch fuel c d).1 = List.range' c k := by
  intro fuel
  induction fuel with
  | zero => intro c d; exact ⟨0, rfl⟩
  | succ fuel ih =>
    intro c d
    rcases hp : parse_receipt_data (fetch c) d with e | ⟨d', total⟩
    · rw [listLoop_succ_err fetch fuel c d hp]
      exact ⟨1, rfl⟩
    · rw [listLoop_succ_ok fetch fuel c d hp]
      by_cases hb : total ≤ c
      · rw [if_pos hb]
        exact ⟨1, rfl⟩
      · rw [if_neg hb]
        obtain ⟨k, hk⟩ := ih (c + 1) d'
        refine ⟨k + 1, ?_⟩
        rw [List.range'_succ]
        simpa [listingReqs] using hk

theorem listLoop_ok_reqs (fetch : Nat → List Node) :
    ∀ (fuel c : Nat) (d : RDict) (log : List Ev) (d' : RDict),
      listLoop fetch fuel c d = (log, .ok d') →
      ∃ k, listingReqs log = List.range' c (k + 1) ∧
        totalPagesOf (fetch (c + k)) ≤ c + k := by
  intro fuel
  induction fuel with
  | zero =>
    intro c d log d' h
    simp only [listLoop, Prod.mk.injEq] at h
    exact absurd h.2 (by simp)
  | succ fuel ih =>
    intro c d log d' h
    rcases hp : parse_receipt_data (fetch c) d with e | ⟨d0, total⟩
    · rw [listLoop_succ_err fetch fuel c d hp] at h
      exact absurd (Prod.mk.injEq _ _ _ _ ▸ h).2 (by simp)
    · rw [listLoop_succ_ok fetch fuel c d hp] at h
      by_cases hb : total ≤ c
      · rw [if_pos hb] at h
        obtain ⟨hlog, _⟩ := Prod.mk.injEq _ _ _ _ ▸ h
        refine ⟨0, ?_, ?_⟩
        · rw [← hlog]; rfl
        · have h2 := (parse_ok_inv hp).2
          simp only [Nat.add_zero]
          omega
      · rw [if_neg hb] at h
        obtain ⟨hlog, hres⟩ := Prod.mk.injEq _ _ _ _ ▸ h
        obtain ⟨k, hk1, hk2⟩ := ih (c + 1) d0 (listLoop fetch fuel (c + 1) d0).1 d'
          (by rw [← hres])
        have harg : c + 1 + k = c + (k + 1) := by omega
        rw [harg] at hk2
        refine ⟨k + 1, ?_, hk2⟩
        rw [← hlog, List.range'_succ]
        simpa [listingReqs] using hk1

theorem listLoop_prov (fetch : Nat → List Node) {k : Option String} {r : Record} :
    ∀ (fuel c : Nat) (d : RDict) (log : List Ev) (d' : RDict),
      listLoop fetch fuel c d = (log, .ok d') → (k, r) ∈ d' →
      (k, r) ∈ d ∨ ∃ p, p ∈ listingReqs log ∧ ∃ i v,
        (fetch p)[i]? = some (.checkbox v) ∧
        rowStep (fetch p) i v = .ok (some (k, r)) := by
  intro fuel
  induction fuel with
  | zero =>
    intro c d log d' h hm
    simp only [listLoop, Prod.mk.injEq] at h
    exact absurd h.2 (by simp)
  | succ fuel ih =>
    intro c d log d' h hm
    rcases hp : parse_receipt_data (fetch c) d with e | ⟨d0, total⟩
    · rw [listLoop_succ_err fetch fuel c d hp] at h
      exact absurd (Prod.mk.injEq _ _ _ _ ▸ h).2 (by simp)
    · rw [listLoop_succ_ok fetch fuel c d hp] at h
      have hfold := (parse_ok_inv hp).1
      by_cases hb : total ≤ c
      · rw [if_pos hb] at h
        obtain ⟨hlog, hres⟩ := Prod.mk.injEq _ _ _ _ ▸ h
        have hd0 : d0 = d' := by
          have := hres
          simp only [RunResult.ok.injEq] at this
          exact this
        subst hd0
        rcases rowsFold_prov hfold hm with h' | ⟨b, hb', hbs⟩
        · exact Or.inl h'
        · refine Or.inr ⟨c, ?_, b.1, b.2, mem_boxesOf.mp hb', hbs⟩
          rw [← hlog]
          simp [listingReqs]
      · rw [if_neg hb] at h
        obtain ⟨hlog, hres⟩ := Prod.mk.injEq _ _ _ _ ▸ h
        rcases ih (c + 1) d0 (listLoop fetch fuel (c + 1) d0).1 d'
            (by rw [← hres]) hm with h' | ⟨p, hp', hrow⟩
        · rcases rowsFold_prov hfold h' with h'' | ⟨b, hb', hbs⟩
          · exact Or.inl h''
          · refine Or.inr ⟨c, ?_, b.1, b.2, mem_boxesOf.mp hb', hbs⟩
            rw [← hlog]
            simp [listingReqs]
        · refine Or.inr ⟨p, ?_, hrow⟩
          rw [← hlog]
          simp only [listingReqs, List.filterMap_cons]
          simp only [listingReqs] at hp'
          exact List.mem_cons_of_mem _ hp'

theorem listLoop_err (fetch : Nat → List Node) :
    ∀ (fuel c : Nat) (d : RDict) (log : List Ev) (e : PyErr),
      listLoop fetch fuel c d = (log, .err e) → e = parseFailErr := by
  intro fuel
  induction fuel with
  | zero =>
    intro c d log e h
    simp only [listLoop, Prod.mk.injEq] at h
    exact absurd h.2 (by simp)
  | succ fuel ih =>
    intro c d log e h
    rcases hp : parse_receipt_data (fetch c) d with e' | ⟨d0, total⟩
    · rw [listLoop_succ_err fetch fuel c d hp] at h
      obtain ⟨_, hres⟩ := Prod.mk.injEq _ _ _ _ ▸ h
      have : e' = e := by
        simpa using hres
      exact this ▸ parse_error_inv hp
    · rw [listLoop_succ_ok fetch fuel c d hp] at h
      by_cases hb : total ≤ c
      · rw [if_pos hb] at h
        exact absurd (Prod.mk.injEq _ _ _ _ ▸ h).2 (by simp)
      · rw [if_neg hb] at h
        obtain ⟨_, hres⟩ := Prod.mk.injEq _ _ _ _ ▸ h
        exact ih (c + 1) d0 (listLoop fetch fuel (c + 1) d0).1 e (by rw [← hres])

theorem gapsAux_listLoop (fetch : Nat → List Node) :
    ∀ (fuel c : Nat) (d : RDict) (acc g : Nat),
      g ∈ gapsAux (listLoop fetch fuel c d).1 true acc → g = acc ∨ g = 1 := by
  intro fuel
  induction fuel with
  | zero =>
    intro c d acc g h
    exact absurd h (List.not_mem_nil _)
  | succ fuel ih =>
    intro c d acc g h
    rcases hp : parse_receipt_data (fetch c) d with e | ⟨d0, total⟩
    · rw [listLoop_succ_err fetch fuel c d hp] at h
      simp only [gapsAux] at h
      rcases List.mem_cons.mp h with rfl | h'
      · exact Or.inl rfl
      · exact absurd h' (List.not_mem_nil _)
    · rw [listLoop_succ_ok fetch fuel c d hp] at h
      by_cases hb : total ≤ c
      · rw [if_pos hb] at h
        simp only [gapsAux] at h
        rcases List.mem_cons.mp h with rfl | h'
        · exact Or.inl rfl
        · exact absurd h' (List.not_mem_nil _)
      · rw [if_neg hb] at h
        simp only [gapsAux, Nat.zero_add] at h
        rcases List.mem_cons.mp h with rfl | h'
        · exact Or.inl rfl
        · rcases ih (c + 1) d0 1 g h' with h'' | h''
          · exact Or.inr h''
          · exact Or.inr h''

theorem gaps_listLoop (fetch : Nat → List Node) :
    ∀ (fuel c : Nat) (d : RDict) (g : Nat),
      g ∈ gaps (listLoop fetch fuel c d).1 → g = 1 := by
  intro fuel c d g h
  rcases fuel with _ | fuel
  · exact absurd h (List.not_mem_nil _)
  · rcases hp : parse_receipt_data (fetch c) d with e | ⟨d0, total⟩
    · rw [listLoop_succ_err fetch fuel c d hp] at h
      simp [gaps, gapsAux] at h
    · rw [listLoop_succ_ok fetch fuel c d hp] at h
      by_cases hb : total ≤ c
      · rw [if_pos hb] at h
        simp [gaps, gapsAux] at h
      · rw [if_neg hb] at h
        simp only [gaps, gapsAux, Nat.zero_add] at h
        rcases gapsAux_listLoop fetch fuel (c + 1) d0 1 g h with h' | h'
        · exact h'
        · exact h'

theorem wrapListing_fst (r : List Ev × RunResult RDict) :
    (wrapListing r).1 = r.1 := by
  rcases r with ⟨log, res⟩
  rcases res with d | e | _
  · rfl
  · rcases e with ⟨c, m⟩ | m <;> rfl
  · rfl

theorem wrapListing_ok {r : List Ev × RunResult RDict} {d : RDict}
    (h : (wrapListing r).2 = .ok d) : r.2 = .ok d := by
  rcases r with ⟨log, res⟩
  rcases res with d' | e | _
  · exact h
  · rcases e with ⟨c, m⟩ | m
    · exact h
    · exact absurd h (by simp [wrapListing])
  · exact h

theorem wrapListing_err {r : List Ev × RunResult RDict} {e : PyErr}
    (h : (wrapListing r).2 = .err e) :
    (∃ m, r.2 = .err (.plain m) ∧ e = .plain ("Failed to get receipts: " ++ m)) ∨
      (r.2 = .err e ∧ ∃ c m, e = .migros c m) := by
  rcases r with ⟨log, res⟩
  rcases res with d' | e' | _
  · exact absurd h (by simp [wrapListing])
  · rcases e' with ⟨c, m⟩ | m
    · right
      refine ⟨?_, ?_⟩
      · exact h
      · have he : PyErr.migros c m = e := by
          simpa [wrapListing] using h
        exact ⟨c, m, he.symm⟩
    · left
      refine ⟨m, rfl, ?_⟩
      have he : PyErr.plain ("Failed to get receipts: " ++ m) = e := by
        simpa [wrapListing] using h
      exact he.symm
  · exact absurd h (by simp [wrapListing])

theorem get_all_receipts_dt (fetch : Nat → List Node) (a b : Int) (fuel : Nat) :
    get_all_receipts fetch (.dt a) (.dt b) fuel =
      if b < a then ([], .err (raiseMigros (.pint 5) none))
      else wrapListing (listLoop fetch fuel 1 []) := rfl

theorem get_all_receipts_invalid (fetch : Nat → List Node) (fuel : Nat)
    (pf pt : PyDateVal) (h : isDatetime pf = false ∨ isDatetime pt = false) :
    get_all_receipts fetch pf pt fuel = ([], .err (raiseMigros (.pint 4) none)) := by
  rcases pf with a | _ <;> rcases pt with b | _
  · rcases h with h | h <;> simp [isDatetime] at h
  · rfl
  · rfl
  · rfl

theorem raiseMigros_custom (c : PyCode) (m : String) :
    raiseMigros c (some m) = .migros (some (pyStr c)) (some m) := rfl

/-! ### The claims -/

/-- Claim C2: a call to `get_all_receipts` with a non-datetime bound fails
with the catalog-code-4 error (and its catalog message) before any network
request, and a call with `period_from > period_to` fails with the
catalog-code-5 error before any network request — the returned event trace
is empty in both cases. -/
theorem c2_validation_before_network (fetch : Nat → List Node) (fuel : Nat) :
    (∀ pf pt : PyDateVal, isDatetime pf = false ∨ isDatetime pt = false →
      get_all_receipts fetch pf pt fuel =
        ([], .err (.migros (some "4")
          (some "period_from and period_to should be datetime objects")))) ∧
    (∀ a b : Int, b < a →
      get_all_receipts fetch (.dt a) (.dt b) fuel =
        ([], .err (.migros (some "5")
          (some "`period_from` should be <= to `period_to`")))) := by
  constructor
  · intro pf pt hnd
    rw [get_all_receipts_invalid fetch fuel pf pt hnd]
    rfl
  · intro a b hba
    rw [get_all_receipts_dt fetch a b fuel, if_pos hba]
    rfl

/-- Witness for C2 at concrete inputs: a non-datetime first argument and
the inverted range `(1, 0)`. -/
theorem c2_validation_witness :
    get_all_receipts (fun _ => []) .notDate (.dt 0) 0 =
      ([], .err (.migros (some "4")
        (some "period_from and period_to should be datetime objects"))) ∧
    get_all_receipts (fun _ => []) (.dt 1) (.dt 0) 0 =
      ([], .err (.migros (some "5")
        (some "`period_from` should be <= to `period_to`"))) :=
  ⟨(c2_validation_before_network (fun _ => []) 0).1 .notDate (.dt 0) (Or.inl rfl),
   (c2_validation_before_network (fun _ => []) 0).2 1 0 (by decide)⟩

/-- Claim C8: for every catalog code (1..6), constructing the exception
with the numeric code or with the equivalent string code and no custom
message stores the catalog message (numeric and string keys are
interchangeable), and constructing it with an explicit custom message
stores exactly that message, bypassing the catalog. -/
theorem c8_catalog_codes :
    (∀ n : Nat, n < 7 → 1 ≤ n →
      (catalogGet (.num (n : Int))).isSome ∧
      catalogGet (.str (toString (n : Int))) = catalogGet (.num (n : Int)) ∧
      excMigrosInit (some (.pint (n : Int))) none =
        .ok ⟨some (toString (n : Int)), catalogGet (.num (n : Int))⟩ ∧
      excMigrosInit (some (.pstr (toString (n : Int)))) none =
        .ok ⟨some (toString (n : Int)), catalogGet (.num (n : Int))⟩) ∧
    (∀ (c : Option PyCode) (msg : String),
      excMigrosInit c (some msg) = .ok ⟨c.map pyStr, some msg⟩) := by
  constructor
  · decide
  · intro c msg
    rfl

/-- Witness for C8 at code 4. -/
theorem c8_catalog_witness :
    (catalogGet (.num ((4 : Nat) : Int))).isSome ∧
    catalogGet (.str (toString ((4 : Nat) : Int))) = catalogGet (.num ((4 : Nat) : Int)) ∧
    excMigrosInit (some (.pint ((4 : Nat) : Int))) none =
      .ok ⟨some (toString ((4 : Nat) : Int)), catalogGet (.num ((4 : Nat) : Int))⟩ ∧
    excMigrosInit (some (.pstr (toString ((4 : Nat) : Int)))) none =
      .ok ⟨some (toString ((4 : Nat) : Int)), catalogGet (.num ((4 : Nat) : Int))⟩ :=
  c8_catalog_codes.1 4 (by decide) (by decide)

/-- Claim C10: constructing the exception with a code that is neither a
catalog key nor a numeric string, and with no custom message — exactly
what `get_receipt` does when a network request fails — makes the
constructor itself raise `ValueError` from the `int(...)` conversion, so
the caller receives an unclassified `ValueError` instead of the
exception. -/
theorem c10_unclassified_valueerror :
    (∀ s : String, catalogGet (.str s) = none → pyIntOfString s = none →
      excMigrosInit (some (.pstr s)) none = .error ()) ∧
    (∀ receipt_id : String,
      catalogGet (.str ("Failed to retrieve receipt " ++ receipt_id)) = none →
      pyIntOfString ("Failed to retrieve receipt " ++ receipt_id) = none →
      get_receipt_error receipt_id = .error ()) := by
  have main : ∀ s : String, catalogGet (.str s) = none → pyIntOfString s = none →
      excMigrosInit (some (.pstr s)) none = .error () := by
    intro s h1 h2
    simp [excMigrosInit, excInitIntFallback, pyStr, h1, h2]
  exact ⟨main, fun receipt_id h1 h2 => main _ h1 h2⟩

/-- Witness for C10 at the receipt id `123`. -/
theorem c10_valueerror_witness :
    excMigrosInit (some (.pstr "Failed to retrieve receipt 123")) none = .error () ∧
    get_receipt_error "123" = .error () :=
  ⟨c10_unclassified_valueerror.1 "Failed to retrieve receipt 123" (by decide) (by decide),
   c10_unclassified_valueerror.2 "123" (by decide) (by decide)⟩

/-- Claim C4: extraction reports a page count equal to the maximum of the
numeric data-values found on pagination anchors (the reported count is one
of the collected values and bounds them all), 1 when none are found, and
the count returned by `_parse_receipt_data` is exactly this value; the
data-values 1, 2, 3, 5 yield page count 5. -/
theorem c4_pagecount_max :
    (∀ doc : List Node,
      (pageValues doc = [] → totalPagesOf doc = 1) ∧
      (pageValues doc ≠ [] → totalPagesOf doc ∈ pageValues doc ∧
        ∀ v ∈ pageValues doc, v ≤ totalPagesOf doc)) ∧
    (∀ (doc : List Node) (d d' : RDict) (n : Nat),
      parse_receipt_data doc d = .ok (d', n) → n = totalPagesOf doc) ∧
    totalPagesOf pageEx = 5 := by
  refine ⟨?_, ?_, by decide⟩
  · intro doc
    constructor
    · intro h
      simp [totalPagesOf, h]
    · intro h
      have hne : (pageValues doc).isEmpty = false := by
        simpa [List.isEmpty_iff] using h
      have hmem : (pageValues doc).foldl Nat.max 0 ∈ pageValues doc := by
        rcases foldl_max_mem (pageValues doc) 0 with h0 | h0
        · obtain ⟨v, hv⟩ := List.exists_mem_of_ne_nil _ h
          have hle : v ≤ (pageValues doc).foldl Nat.max 0 := le_foldl_max _ 0 v hv
          have hv0 : v = 0 := by omega
          rw [h0]
          exact hv0 ▸ hv
        · exact h0
      constructor
      · simpa [totalPagesOf, hne] using hmem
      · intro v hv
        have := le_foldl_max (pageValues doc) 0 v hv
        simpa [totalPagesOf, hne] using this
  · intro doc d d' n h
    exact (parse_ok_inv h).2

/-- Witness for C4 at the page with data-values 1, 2, 3, 5. -/
theorem c4_pagecount_witness :
    pageValues pageEx ≠ [] ∧ totalPagesOf pageEx ∈ pageValues pageEx :=
  ⟨by decide, ((c4_pagecount_max.1 pageEx).2 (by decide)).1⟩

/-- Counterexample for C3: on a login page without the token marker the
raised error carries code 1 and no credential POST happens, but its
message is the literal `CSRF token not found`, not `token not found` as
the claim states. -/
theorem c3_message_counterexample :
    (authTrace wNoToken).2 = .error (.migros (some "1") (some "CSRF token not found")) ∧
    "CSRF token not found" ≠ "token not found" ∧
    reqsOf (authTrace wNoToken).1 = [ReqTag.loginPage] := by
  refine ⟨by decide, by decide, by decide⟩

/-- Claim C3 (amended): for every login-page body without the anti-forgery
token pattern, the login run fails with `ExceptionMigrosApi` code 1 and
message `CSRF token not found`, and no credential POST request is issued
(only the warm-up and the login-page fetch happen). -/
theorem c3_token_missing_no_post (w : LoginWorld)
    (h : csrfSearch w.loginBody = none) :
    (loginRun w).2 = .error (.migros (some "1") (some "CSRF token not found")) ∧
    reqsOf (loginRun w).1 = [ReqTag.warmup, ReqTag.loginPage] ∧
    ReqTag.credPost ∉ reqsOf (loginRun w).1 := by
  have ha : authTrace w = ([Ev.req .loginPage, Ev.sleep 1],
      .error (raiseMigros (.pint 1) (some "CSRF token not found"))) := by
    unfold authTrace
    rw [h]
  have hc : loginCumulusTrace w = ([Ev.req .loginPage, Ev.sleep 1],
      .error (raiseMigros (.pint 1) (some "CSRF token not found"))) := by
    unfold loginCumulusTrace
    rw [ha]
  have hr : loginRun w = (Ev.req .warmup :: Ev.sleep 1 ::
      [Ev.req .loginPage, Ev.sleep 1],
      .error (raiseMigros (.pint 1) (some "CSRF token not found"))) := by
    unfold loginRun
    rw [hc]
  rw [hr]
  exact ⟨rfl, rfl, by decide⟩

/-- Witness for C3 at the concrete tokenless login page. -/
theorem c3_token_missing_witness :
    (loginRun wNoToken).2 = .error (.migros (some "1") (some "CSRF token not found")) ∧
    reqsOf (loginRun wNoToken).1 = [ReqTag.warmup, ReqTag.loginPage] ∧
    ReqTag.credPost ∉ reqsOf (loginRun wNoToken).1 :=
  c3_token_missing_no_post wNoToken (by decide)

/-- Counterexample for C9: in a fully successful login run the pacing gaps
between successive requests are 1, 3 and 0 time units — the credential
POST and the loyalty-subsystem check are not separated by any delay, so
the gaps are not all at least 1. -/
theorem c9_pacing_counterexample :
    gaps (loginRun wHappy).1 = [1, 3, 0] ∧
    ¬ (∀ g ∈ gaps (loginRun wHappy).1, 1 ≤ g) := by
  refine ⟨by decide, by decide⟩

/-- Claim C9 (amended): in every login run that reaches the subsystem
check, the delays between successive requests are exactly 1 unit (warm-up
to login-page fetch), 3 units (login-page fetch to credential POST) and 0
units (credential POST to loyalty-subsystem check); during pagination,
every pair of successive page fetches is separated by exactly 1 unit. -/
theorem c9_pacing (fetch : Nat → List Node) (pf pt : PyDateVal) (fuel : Nat) :
    (∀ w : LoginWorld, (csrfSearch w.loginBody).isSome →
      w.postErrorTexts = [] → w.postUrlHasAuthError = false →
      gaps (loginRun w).1 = [1, 3, 0] ∧
      reqsOf (loginRun w).1 = [.warmup, .loginPage, .credPost, .cumulus]) ∧
    (∀ g ∈ gaps (get_all_receipts fetch pf pt fuel).1, g = 1) := by
  constructor
  · intro w h1 h2 h3
    obtain ⟨tok, htok⟩ := Option.isSome_iff_exists.mp h1
    have ha : authTrace w = ([Ev.req .loginPage, Ev.sleep 1] ++
        [Ev.sleep 2, Ev.req .credPost], .ok ()) := by
      unfold authTrace
      rw [htok]
      simp [h2, h3]
    have hc : (loginCumulusTrace w).1 = [Ev.req .loginPage, Ev.sleep 1,
        Ev.sleep 2, Ev.req .credPost, Ev.req .cumulus] := by
      unfold loginCumulusTrace
      rw [ha]
      by_cases hm : w.cumulusMarkerPresent <;> simp [hm]
    have hr : (loginRun w).1 = Ev.req .warmup :: Ev.sleep 1 ::
        (loginCumulusTrace w).1 := rfl
    rw [hr, hc]
    exact ⟨rfl, rfl⟩
  · intro g hg
    rcases pf with a | _
    · rcases pt with b | _
      · by_cases hba : b < a
        · rw [get_all_receipts_dt, if_pos hba] at hg
          simp [gaps, gapsAux] at hg
        · rw [get_all_receipts_dt, if_neg hba, wrapListing_fst] at hg
          exact gaps_listLoop fetch fuel 1 [] g hg
      · rw [get_all_receipts_invalid fetch fuel (.dt a) .notDate (Or.inr rfl)] at hg
        simp [gaps, gapsAux] at hg
    · rw [get_all_receipts_invalid fetch fuel .notDate pt (Or.inl rfl)] at hg
      simp [gaps, gapsAux] at hg

/-- Witness for C9: the happy-path login world and a two-page listing. -/
theorem c9_pacing_witness :
    (gaps (loginRun wHappy).1 = [1, 3, 0] ∧
      reqsOf (loginRun wHappy).1 = [.warmup, .loginPage, .credPost, .cumulus]) ∧
    (∀ g ∈ gaps (get_all_receipts scenFetch (.dt 0) (.dt 1) 9).1, g = 1) :=
  ⟨(c9_pacing scenFetch (.dt 0) (.dt 1) 9).1 wHappy (by decide) rfl rfl,
   (c9_pacing scenFetch (.dt 0) (.dt 1) 9).2⟩

/-- Counterexample for C1: a listing whose first page reports page count 2
but whose second page reports page count 3 drives the loop to a third
request — the first page's count is not the loop bound. -/
theorem c1_firstpage_bound_counterexample :
    totalPagesOf (divFetch 1) = 2 ∧
    listingReqs (get_all_receipts divFetch (.dt 0) (.dt 1) 9).1 = [1, 2, 3] ∧
    [1, 2, 3] ≠ ([1, 2] : List Nat) := by
  refine ⟨by decide, by decide, by decide⟩

/-- Claim C1 (amended): `get_all_receipts` issues listing requests with
the page cursor strictly ascending from 1 without gaps; the loop bound is
re-read from every fetched page's extraction (not fixed from the first
page), and on success the loop stops at the first page whose reported
count does not exceed its cursor; in the two-page scenario (second page
reports no further pages) exactly two requests are issued, for page 1 then
page 2, and the mapping has three entries. -/
theorem c1_cursor_ascending :
    (∀ (fetch : Nat → List Node) (pf pt : PyDateVal) (fuel : Nat),
      ∃ k, listingReqs (get_all_receipts fetch pf pt fuel).1 = List.range' 1 k) ∧
    (∀ (fetch : Nat → List Node) (pf pt : PyDateVal) (fuel : Nat) (d : RDict),
      (get_all_receipts fetch pf pt fuel).2 = .ok d →
      ∃ k, listingReqs (get_all_receipts fetch pf pt fuel).1 = List.range' 1 (k + 1) ∧
        totalPagesOf (fetch (1 + k)) ≤ 1 + k) ∧
    (listingReqs (get_all_receipts scenFetch (.dt 0) (.dt 1) 9).1 = [1, 2] ∧
      ∃ d, (get_all_receipts scenFetch (.dt 0) (.dt 1) 9).2 = .ok d ∧
        d.length = 3) := by
  refine ⟨?_, ?_, ?_, ?_⟩
  · intro fetch pf pt fuel
    rcases pf with a | _
    · rcases pt with b | _
      · by_cases hba : b < a
        · rw [get_all_receipts_dt, if_pos hba]
          exact ⟨0, rfl⟩
        · rw [get_all_receipts_dt, if_neg hba, wrapListing_fst]
          exact listLoop_reqs fetch fuel 1 []
      · rw [get_all_receipts_invalid fetch fuel (.dt a) .notDate (Or.inr rfl)]
        exact ⟨0, rfl⟩
    · rw [get_all_receipts_invalid fetch fuel .notDate pt (Or.inl rfl)]
      exact ⟨0, rfl⟩
  · intro fetch pf pt fuel d hok
    rcases pf with a | _
    · rcases pt with b | _
      · by_cases hba : b < a
        · rw [get_all_receipts_dt, if_pos hba] at hok
          exact absurd hok (by simp)
        · rw [get_all_receipts_dt, if_neg hba] at hok ⊢
          rw [wrapListing_fst]
          have h2 := wrapListing_ok hok
          exact listLoop_ok_reqs fetch fuel 1 [] (listLoop fetch fuel 1 []).1 d
            (by rw [← h2])
      · rw [get_all_receipts_invalid fetch fuel (.dt a) .notDate (Or.inr rfl)] at hok
        exact absurd hok (by simp)
    · rw [get_all_receipts_invalid fetch fuel .notDate pt (Or.inl rfl)] at hok
      exact absurd hok (by simp)
  · decide
  · exact ⟨[(some "dl1", ⟨"export?receiptId=r1", "r1", "Store One", "10.00", "5"⟩),
      (some "dl2", ⟨"export?receiptId=r2", "r2", "Store Two", "20.50", "7"⟩),
      (some "dl3", ⟨"export?receiptId=r3", "r3", "Store Three", "5.95", "2"⟩)],
      by decide, rfl⟩

/-- Witness for C1 on a one-page empty listing. -/
theorem c1_cursor_witness :
    ∃ k, listingReqs (get_all_receipts (fun _ => []) (.dt 0) (.dt 0) 1).1 =
        List.range' 1 (k + 1) ∧
      totalPagesOf ([] : List Node) ≤ 1 + k :=
  c1_cursor_ascending.2.1 (fun _ => []) (.dt 0) (.dt 0) 1 [] (by decide)

/-- Counterexample for C5: on `docSteal` the first row's own detail link
is absent (the only modal anchor belongs to the second row), yet the row
is not skipped — key `rowA` appears in the mapping, paired with the second
row's link and cells, because `find_next` walks past the row boundary. -/
theorem c5_missing_link_counterexample :
    parse_receipt_data docSteal [] =
      .ok ([(some "rowA", ⟨"export?receiptId=rB", "rB", "StoreB", "9.99", "3"⟩),
            (some "rowB", ⟨"export?receiptId=rB", "rB", "StoreB", "9.99", "3"⟩)], 1) ∧
    some "rowA" ∈ keys
      [(some "rowA", (⟨"export?receiptId=rB", "rB", "StoreB", "9.99", "3"⟩ : Record)),
       (some "rowB", ⟨"export?receiptId=rB", "rB", "StoreB", "9.99", "3"⟩)] := by
  refine ⟨by decide, by decide⟩

/-- Claim C5 (amended): a listing row is skipped — without emitting a
record and without aborting the page — when no detail-link anchor occurs
anywhere after its selector control in the document, or when fewer than
three data cells follow the anchor that was found; every row whose step
completes is included in the mapping, and every mapping entry stems from a
completed row step (so no partial record ever appears).  A row whose own
detail link is missing but that is followed by a later row's anchor is not
skipped: it is emitted with that later anchor's data. -/
theorem c5_row_skip (doc : List Node) (i : Nat) (v : Option String)
    (hcb : doc[i]? = some (.checkbox v)) (hall : v ≠ some "all") :
    (findNextModal doc i = none → rowStep doc i v = .ok none) ∧
    (∀ j h, findNextModal doc i = some (j, some h) →
      (findNextTd doc j = none ∨
        ∃ j1 s, findNextTd doc j = some (j1, s) ∧
          (findNextTd doc j1 = none ∨
            ∃ j2 c, findNextTd doc j1 = some (j2, c) ∧ findNextTd doc j2 = none)) →
      rowStep doc i v = .ok none) ∧
    (∀ (d0 d : RDict) (k : Option String) (r : Record),
      rowsFold doc (boxesOf doc) d0 = .ok d →
      rowStep doc i v = .ok (some (k, r)) → k ∈ keys d) ∧
    (∀ (d0 d : RDict) (k : Option String) (r : Record),
      rowsFold doc (boxesOf doc) d0 = .ok d → (k, r) ∈ d →
      (k, r) ∈ d0 ∨ ∃ i' v', doc[i']? = some (.checkbox v') ∧
        rowStep doc i' v' = .ok (some (k, r))) := by
  refine ⟨?_, ?_, ?_, ?_⟩
  · intro h
    simp [rowStep, hall, h]
  · intro j h hm hcells
    rcases hcells with h1 | ⟨j1, s, h1, h2 | ⟨j2, c, h2, h3⟩⟩
    · simp [rowStep, hall, hm, h1]
    · simp [rowStep, hall, hm, h1, h2]
    · simp [rowStep, hall, hm, h1, h2, h3]
  · intro d0 d k r hfold hstep
    exact rowsFold_incl hfold (mem_boxesOf.mpr hcb) hstep
  · intro d0 d k r hfold hmem
    rcases rowsFold_prov hfold hmem with h' | ⟨b, hb, hbs⟩
    · exact Or.inl h'
    · exact Or.inr ⟨b.1, b.2, mem_boxesOf.mp hb, hbs⟩

/-- Witness for C5: a trailing row with no detail anchor after it is
skipped. -/
theorem c5_row_skip_witness :
    rowStep [Node.checkbox (some "Z")] 0 (some "Z") = .ok none :=
  (c5_row_skip [Node.checkbox (some "Z")] 0 (some "Z") (by decide) (by decide)).1
    (by decide)

/-- Claim C6: every key of a mapping returned by `get_all_receipts` is the
`value` attribute of a selector checkbox on one of the requested pages,
the stored `pdf_ref` is the `href` of the detail link found forward from
that checkbox, and the stored receipt id is the suffix of that `href`
after the `receiptId=` marker. -/
theorem c6_roundtrip (fetch : Nat → List Node) (pf pt : PyDateVal) (fuel : Nat)
    (d : RDict) (hok : (get_all_receipts fetch pf pt fuel).2 = .ok d)
    (k : Option String) (r : Record) (hm : (k, r) ∈ d) :
    r.receipt_id = lastSegment "receiptId=" r.pdf_ref ∧
    ∃ p, p ∈ listingReqs (get_all_receipts fetch pf pt fuel).1 ∧
      ∃ i j, (fetch p)[i]? = some (.checkbox k) ∧
        findNextModal (fetch p) i = some (j, some r.pdf_ref) := by
  rcases pf with a | _
  · rcases pt with b | _
    · by_cases hba : b < a
      · rw [get_all_receipts_dt, if_pos hba] at hok
        exact absurd hok (by simp)
      · rw [get_all_receipts_dt, if_neg hba] at hok ⊢
        rw [wrapListing_fst]
        have h2 := wrapListing_ok hok
        have hpair : listLoop fetch fuel 1 [] =
            ((listLoop fetch fuel 1 []).1, .ok d) := by
          rw [← h2]
        rcases listLoop_prov fetch fuel 1 [] (listLoop fetch fuel 1 []).1 d hpair hm
          with h' | ⟨p, hp', i, v, hcb, hrow⟩
        · exact absurd h' (List.not_mem_nil _)
        · obtain ⟨hkv, hvall, j, hfm, hrid⟩ := rowStep_ok_some hrow
          subst hkv
          exact ⟨hrid, p, hp', i, j, hcb, hfm⟩
    · rw [get_all_receipts_invalid fetch fuel (.dt a) .notDate (Or.inr rfl)] at hok
      exact absurd hok (by simp)
  · rw [get_all_receipts_invalid fetch fuel .notDate pt (Or.inl rfl)] at hok
    exact absurd hok (by simp)

/-- Witness for C6 on a one-row listing. -/
theorem c6_roundtrip_witness :
    (⟨"export?receiptId=w1", "w1", "S", "1.00", "0"⟩ : Record).receipt_id =
      lastSegment "receiptId="
        (⟨"export?receiptId=w1", "w1", "S", "1.00", "0"⟩ : Record).pdf_ref ∧
    ∃ p, p ∈ listingReqs (get_all_receipts (fun _ => docOneRow) (.dt 0) (.dt 0) 2).1 ∧
      ∃ i j, docOneRow[i]? = some (.checkbox (some "k1")) ∧
        findNextModal docOneRow i =
          some (j, some (⟨"export?receiptId=w1", "w1", "S", "1.00", "0"⟩ : Record).pdf_ref) :=
  c6_roundtrip (fun _ => docOneRow) (.dt 0) (.dt 0) 2
    [(some "k1", ⟨"export?receiptId=w1", "w1", "S", "1.00", "0"⟩)] (by decide)
    (some "k1") ⟨"export?receiptId=w1", "w1", "S", "1.00", "0"⟩ (by decide)

/-- Counterexample for C7: a listing page whose detail anchor has no
`href` makes the whole query fail with a plain wrapped `Exception`
carrying no catalog code — not a classified, catalog-coded error. -/
theorem c7_uncoded_parse_counterexample :
    (get_all_receipts (fun _ => docBadHref) (.dt 0) (.dt 0) 3).2 =
      .err (.plain "Failed to get receipts: Failed to parse receipt data: AttributeError") ∧
    hasCatalogCode
      (.plain "Failed to get receipts: Failed to parse receipt data: AttributeError") = false := by
  refine ⟨by decide, rfl⟩

/-- Claim C7 (amended): every error escaping `get_all_receipts` is either
a catalog-coded validation error (code 4 or 5) or — for an unparsable
listing page — a plain wrapped `Exception` carrying a message but no
catalog code; every error escaping the login sequence is catalog-coded
with code 1 or 3 plus a message. -/
theorem c7_error_classification :
    (∀ (fetch : Nat → List Node) (pf pt : PyDateVal) (fuel : Nat) (e : PyErr),
      (get_all_receipts fetch pf pt fuel).2 = .err e →
      e = .migros (some "4") (some "period_from and period_to should be datetime objects") ∨
      e = .migros (some "5") (some "`period_from` should be <= to `period_to`") ∨
      (e = .plain "Failed to get receipts: Failed to parse receipt data: AttributeError" ∧
        hasCatalogCode e = false)) ∧
    (∀ (w : LoginWorld) (e : PyErr), (loginRun w).2 = .error e →
      ∃ c m, e = .migros (some c) (some m) ∧ (c = "1" ∨ c = "3")) := by
  constructor
  · intro fetch pf pt fuel e he
    rcases pf with a | _
    · rcases pt with b | _
      · by_cases hba : b < a
        · rw [get_all_receipts_dt, if_pos hba] at he
          have h5 : raiseMigros (.pint 5) none = e := by
            simpa using he
          exact Or.inr (Or.inl (h5.symm.trans (by decide)))
        · rw [get_all_receipts_dt, if_neg hba] at he
          rcases wrapListing_err he with ⟨m, hr2, hee⟩ | ⟨hr2, c, m', hmig⟩
          · have hpair : listLoop fetch fuel 1 [] =
                ((listLoop fetch fuel 1 []).1, .err (.plain m)) := by
              rw [← hr2]
            have hpf := listLoop_err fetch fuel 1 [] _ _ hpair
            have hm : m = "Failed to parse receipt data: AttributeError" := by
              simpa [parseFailErr] using hpf
            refine Or.inr (Or.inr ⟨?_, ?_⟩)
            · rw [hee, hm]
              decide
            · rw [hee]
              rfl
          · have hpair : listLoop fetch fuel 1 [] =
                ((listLoop fetch fuel 1 []).1, .err e) := by
              rw [← hr2]
            have hpf := listLoop_err fetch fuel 1 [] _ _ hpair
            rw [hmig] at hpf
            exact absurd hpf (by simp [parseFailErr])
      · rw [get_all_receipts_invalid fetch fuel (.dt a) .notDate (Or.inr rfl)] at he
        have h4 : raiseMigros (.pint 4) none = e := by
          simpa using he
        exact Or.inl (h4.symm.trans (by decide))
    · rw [get_all_receipts_invalid fetch fuel .notDate pt (Or.inl rfl)] at he
      have h4 : raiseMigros (.pint 4) none = e := by
        simpa using he
      exact Or.inl (h4.symm.trans (by decide))
  · intro w e h
    replace h : (loginCumulusTrace w).2 = .error e := h
    rcases hcs : csrfSearch w.loginBody with _ | tok
    · have ha : authTrace w = ([Ev.req .loginPage, Ev.sleep 1],
          .error (raiseMigros (.pint 1) (some "CSRF token not found"))) := by
        unfold authTrace
        rw [hcs]
      have hl : loginCumulusTrace w = ([Ev.req .loginPage, Ev.sleep 1],
          .error (raiseMigros (.pint 1) (some "CSRF token not found"))) := by
        unfold loginCumulusTrace
        rw [ha]
      rw [hl] at h
      have he : raiseMigros (.pint 1) (some "CSRF token not found") = e := by
        simpa using h
      exact ⟨"1", "CSRF token not found", he.symm.trans (by decide), Or.inl rfl⟩
    · rcases hpe : w.postErrorTexts with _ | ⟨t, ts⟩
      · by_cases hurl : w.postUrlHasAuthError
        · have ha : authTrace w =
              ([Ev.req .loginPage, Ev.sleep 1] ++ [Ev.sleep 2, Ev.req .credPost],
                .error (raiseMigros (.pint 1) (some "Authentication failed"))) := by
            unfold authTrace
            rw [hcs, hpe]
            simp [hurl]
          have hl : loginCumulusTrace w =
              ([Ev.req .loginPage, Ev.sleep 1] ++ [Ev.sleep 2, Ev.req .credPost],
                .error (raiseMigros (.pint 1) (some "Authentication failed"))) := by
            unfold loginCumulusTrace
            rw [ha]
          rw [hl] at h
          have he : raiseMigros (.pint 1) (some "Authentication failed") = e := by
            simpa using h
          exact ⟨"1", "Authentication failed", he.symm.trans (by decide), Or.inl rfl⟩
        · have ha : authTrace w =
              ([Ev.req .loginPage, Ev.sleep 1] ++ [Ev.sleep 2, Ev.req .credPost],
                .ok ()) := by
            unfold authTrace
            rw [hcs, hpe]
            simp [hurl]
          rcases hcm : w.cumulusMarkerPresent with _ | _
          · have hl : loginCumulusTrace w =
                (([Ev.req .loginPage, Ev.sleep 1] ++ [Ev.sleep 2, Ev.req .credPost]) ++
                    [Ev.req .cumulus],
                  .error (raiseMigros (.pint 3) (some "Failed to access Cumulus account"))) := by
              unfold loginCumulusTrace
              rw [ha]
              simp [hcm]
            rw [hl] at h
            have he : raiseMigros (.pint 3) (some "Failed to access Cumulus account") = e := by
              simpa using h
            exact ⟨"3", "Failed to access Cumulus account", he.symm.trans (by decide), Or.inr rfl⟩
          · have hl : loginCumulusTrace w =
                (([Ev.req .loginPage, Ev.sleep 1] ++ [Ev.sleep 2, Ev.req .credPost]) ++
                    [Ev.req .cumulus], .ok ()) := by
              unfold loginCumulusTrace
              rw [ha]
              simp [hcm]
            rw [hl] at h
            exact absurd h (by simp)
      · have ha : authTrace w =
            ([Ev.req .loginPage, Ev.sleep 1] ++ [Ev.sleep 2, Ev.req .credPost],
              .error (raiseMigros (.pint 1)
                (some ("Login failed: " ++ String.intercalate " | " (t :: ts))))) := by
          unfold authTrace
          rw [hcs, hpe]
          simp
        have hl : loginCumulusTrace w =
            ([Ev.req .loginPage, Ev.sleep 1] ++ [Ev.sleep 2, Ev.req .credPost],
              .error (raiseMigros (.pint 1)
                (some ("Login failed: " ++ String.intercalate " | " (t :: ts))))) := by
          unfold loginCumulusTrace
          rw [ha]
        rw [hl] at h
        have he : raiseMigros (.pint 1)
            (some ("Login failed: " ++ String.intercalate " | " (t :: ts))) = e := by
          simpa using h
        have h1 : pyStr (PyCode.pint 1) = "1" := by decide
        exact ⟨"1", "Login failed: " ++ String.intercalate " | " (t :: ts),
          he.symm.trans ((raiseMigros_custom _ _).trans (by rw [h1])), Or.inl rfl⟩

/-- Witness for C7: the inverted-range failure carries catalog code 5. -/
theorem c7_classification_witness :
    PyErr.migros (some "5") (some "`period_from` should be <= to `period_to`") =
      .migros (some "4") (some "period_from and period_to should be datetime objects") ∨
    PyErr.migros (some "5") (some "`period_from` should be <= to `period_to`") =
      .migros (some "5") (some "`period_from` should be <= to `period_to`") ∨
    (PyErr.migros (some "5") (some "`period_from` should be <= to `period_to`") =
        .plain "Failed to get receipts: Failed to parse receipt data: AttributeError" ∧
      hasCatalogCode
        (PyErr.migros (some "5") (some "`period_from` should be <= to `period_to`")) = false) :=
  c7_error_classification.1 (fun _ => []) (.dt 1) (.dt 0) 0
    (.migros (some "5") (some "`period_from` should be <= to `period_to`")) (by decide)

end MigrosApi
